import Mathlib

/-!
Shallow embedding of `src/agents/pi-tools.before-tool-call.ts`.

The source is a tool-interception layer: `runBeforeToolCallHook` and
`runToolResultReceivedHook` dispatch a tool invocation's params/result
through an (optional, global) hook runner and interpret the returned
verdict; `wrapToolWithBeforeToolCallHook` produces a tool whose `execute`
sequences before-hook, underlying execution and after-hook.

Modelling decisions:
* JavaScript runtime values are modelled by the inductive `Value`
  (null, undefined, booleans, numbers, strings, arrays, plain objects as
  insertion-ordered association lists).
* Thrown values / promise rejections are modelled with `Except JsExc`;
  `JsExc.jsError m` is an `Error` object with message `m` as built by
  `throw new Error(m)`, `JsExc.thrownValue v` any other thrown value.
* The external collaborators (`getGlobalHookRunner`, `normalizeToolName`)
  are carried in an `Env` record; a hook runner's methods are arbitrary
  fallible functions. `hasHooks` is fallible too, since in the source it
  is a runner method that can throw like any other.
* `log.warn` calls are reified: each hook function returns, next to its
  outcome, the list of warning entries it emitted (empty on the paths
  that do not log).
* Wall-clock timing (`Date.now()` around the underlying `execute`) is not
  shallowly embeddable; the measured duration is supplied by the
  environment as the oracle field `Env.execDurationMs`.
-/

namespace PiToolsHooks

/-- JavaScript-like runtime values: the shapes `unknown` params/results can
take. Plain objects are insertion-ordered association lists. -/
inductive Value where
  | vNull
  | vUndef
  | vBool (b : Bool)
  | vNum (n : Int)
  | vStr (s : String)
  | vArr (elems : List Value)
  | vObj (fields : List (String × Value))

/-- Models `isPlainObject`: `typeof value === "object" && value !== null &&
!Array.isArray(value)`. `vNull` has typeof "object" but is null; arrays are
excluded; all other shapes are not of typeof "object". -/
def isPlainObject : Value → Bool
  | .vObj _ => true
  | _ => false

/-- JavaScript truthiness of a `Value`. -/
def truthy : Value → Bool
  | .vNull => false
  | .vUndef => false
  | .vBool b => b
  | .vNum n => n != 0
  | .vStr s => s != ""
  | .vArr _ => true
  | .vObj _ => true

/-- Thrown JavaScript values: an `Error` object carrying a message (as built
by `throw new Error(msg)`), or an arbitrary other thrown value. -/
inductive JsExc where
  | jsError (message : String)
  | thrownValue (v : Value)

/-- First half of the spread `\x7b ...orig, ...repl \x7d`: all original keys in
order, values overridden by the replacement where its key matches. -/
def overrideFields (orig repl : List (String × Value)) : List (String × Value) :=
  orig.map fun kv =>
    match repl.lookup kv.1 with
    | some v => (kv.1, v)
    | none => kv

/-- Second half of the spread `\x7b ...orig, ...repl \x7d`: the replacement
entries whose keys do not occur in the original, in replacement order. -/
def newFields (orig repl : List (String × Value)) : List (String × Value) :=
  repl.filter fun kv => (orig.lookup kv.1).isNone

/-- Models the spread `\x7b ...orig, ...repl \x7d` on two plain objects: all
original keys in order, values overridden by the replacement where its key
matches, followed by the replacement entries whose keys are new. -/
def spreadMerge (orig repl : List (String × Value)) : List (String × Value) :=
  overrideFields orig repl ++ newFields orig repl

/-- Models `x || d` where `x : string | undefined`: the default is taken when
the reason is absent or falsy (the empty string). -/
def strOrDefault (s : Option String) (d : String) : String :=
  match s with
  | some s => if s == "" then d else s
  | none => d

/-- Models `new Error(x).message` for `x : string | undefined`: `new
Error(undefined)` has message `""`. -/
def errMessageOf (s : Option String) : String :=
  match s with
  | some s => s
  | none => ""

/-- The two lifecycle events of the hook runner. -/
inductive HookEvent where
  | before_tool_call
  | tool_result_received

/-- The `HookContext` type of the source: optional scoping identifiers. -/
structure HookContext where
  agentId : Option String
  sessionKey : Option String

/-- Payload handed to `hookRunner.runBeforeToolCall`. -/
structure BeforePayload where
  toolName : String
  params : Value

/-- Payload handed to `hookRunner.runToolResultReceived`. -/
structure AfterPayload where
  toolName : String
  params : Value
  result : Value
  durationMs : Option Nat

/-- The second (context) argument handed to both runner methods:
`\x7b toolName, agentId: args.ctx?.agentId, sessionKey: args.ctx?.sessionKey \x7d`. -/
structure HookInvokeCtx where
  toolName : String
  agentId : Option String
  sessionKey : Option String

/-- Verdict the runner returns for `before_tool_call`:
`\x7b block?: bool, blockReason?: string, params?: unknown \x7d`. -/
structure BeforeHookResult where
  block : Option Bool
  blockReason : Option String
  params : Option Value

/-- Verdict the runner returns for `tool_result_received`:
`\x7b block?: bool, blockReason?: string, result?: unknown \x7d`; `result := none`
models the `undefined` / not-provided case. -/
structure AfterHookResult where
  block : Option Bool
  blockReason : Option String
  result : Option Value

/-- The hook runner interface (external collaborator). Every method may
throw; the run methods may also return no verdict (`none`, i.e. `undefined`). -/
structure HookRunner where
  hasHooks : HookEvent → Except JsExc Bool
  runBeforeToolCall :
    BeforePayload → HookInvokeCtx → Except JsExc (Option BeforeHookResult)
  runToolResultReceived :
    AfterPayload → HookInvokeCtx → Except JsExc (Option AfterHookResult)

/-- The ambient environment: the global hook runner (`getGlobalHookRunner()`
may yield nothing), the external `normalizeToolName` function, and the
duration oracle standing in for the `Date.now()` measurement. -/
structure Env where
  hookRunner : Option HookRunner
  normalizeToolName : String → String
  execDurationMs : Nat

/-- A reified `log.warn` entry: which hook failed, for which tool and call,
and the caught value. -/
structure LogEntry where
  event : HookEvent
  toolName : String
  toolCallId : Option String
  err : JsExc

/-- The source's `HookOutcome` union:
`\x7b blocked: true; reason: string \x7d | \x7b blocked: false; params: unknown \x7d`. -/
inductive HookOutcome where
  | blocked (reason : String)
  | allowed (params : Value)

/-- Return shape of `runToolResultReceivedHook`:
`\x7b blocked: boolean; reason?: string; result: unknown \x7d`. -/
structure ToolResultOutcome where
  blocked : Bool
  reason : Option String
  result : Value

/-- Argument record of `runBeforeToolCallHook`. -/
structure BeforeArgs where
  toolName : String
  params : Value
  toolCallId : Option String
  ctx : Option HookContext

/-- Argument record of `runToolResultReceivedHook`. -/
structure AfterArgs where
  toolName : String
  params : Value
  result : Value
  toolCallId : Option String
  ctx : Option HookContext
  durationMs : Option Nat

/-- Models `normalizeToolName(args.toolName || "tool")`. -/
def normName (env : Env) (raw : String) : String :=
  env.normalizeToolName (if raw == "" then "tool" else raw)

/-- Models `isPlainObject(params) ? params : \x7b\x7d`. -/
def normalizedParamsOf (params : Value) : Value :=
  if isPlainObject params then params else Value.vObj []

/-- Models the context record `\x7b toolName, agentId: args.ctx?.agentId,
sessionKey: args.ctx?.sessionKey \x7d`. -/
def mkInvokeCtx (toolName : String) (ctx : Option HookContext) : HookInvokeCtx :=
  { toolName := toolName
    agentId := ctx.bind (·.agentId)
    sessionKey := ctx.bind (·.sessionKey) }

/-- Embedding of `runBeforeToolCallHook`. The `Except` layer carries a
throw escaping the function, which can only come from `hasHooks` (called
outside the `try`); a caught failure of `runBeforeToolCall` instead yields
a warning entry and the pass-through outcome, as in the source's `catch`. -/
def runBeforeToolCallHook (env : Env) (args : BeforeArgs) :
    Except JsExc (HookOutcome × List LogEntry) :=
  match env.hookRunner with
  | none => .ok (.allowed args.params, [])
  | some hookRunner =>
    match hookRunner.hasHooks .before_tool_call with
    | .error e => .error e
    | .ok false => .ok (.allowed args.params, [])
    | .ok true =>
      let toolName := normName env args.toolName
      let params := args.params
      let normalizedParams := normalizedParamsOf params
      match hookRunner.runBeforeToolCall
          { toolName := toolName, params := normalizedParams }
          (mkInvokeCtx toolName args.ctx) with
      | .error err =>
        .ok (.allowed params,
          [{ event := .before_tool_call, toolName := toolName,
             toolCallId := args.toolCallId, err := err }])
      | .ok hookResult =>
        match hookResult with
        | some hres =>
          if hres.block == some true then
            .ok (.blocked (strOrDefault hres.blockReason "Tool call blocked by plugin hook"), [])
          else
            match hres.params with
            | some hp =>
              if truthy hp && isPlainObject hp then
                if isPlainObject params then
                  match params, hp with
                  | .vObj o, .vObj r => .ok (.allowed (.vObj (spreadMerge o r)), [])
                  | _, _ => .ok (.allowed hp, [])
                else
                  .ok (.allowed hp, [])
              else
                .ok (.allowed params, [])
            | none => .ok (.allowed params, [])
        | none => .ok (.allowed params, [])

/-- Embedding of `runToolResultReceivedHook`. As with the before-hook, only
a throw from `hasHooks` escapes; a caught failure of `runToolResultReceived`
yields a warning entry and `\x7b blocked: false, result: args.result \x7d`. -/
def runToolResultReceivedHook (env : Env) (args : AfterArgs) :
    Except JsExc (ToolResultOutcome × List LogEntry) :=
  match env.hookRunner with
  | none => .ok ({ blocked := false, reason := none, result := args.result }, [])
  | some hookRunner =>
    match hookRunner.hasHooks .tool_result_received with
    | .error e => .error e
    | .ok false => .ok ({ blocked := false, reason := none, result := args.result }, [])
    | .ok true =>
      let toolName := normName env args.toolName
      match hookRunner.runToolResultReceived
          { toolName := toolName, params := args.params,
            result := args.result, durationMs := args.durationMs }
          (mkInvokeCtx toolName args.ctx) with
      | .error err =>
        .ok ({ blocked := false, reason := none, result := args.result },
          [{ event := .tool_result_received, toolName := toolName,
             toolCallId := args.toolCallId, err := err }])
      | .ok hookResult =>
        match hookResult with
        | some hres =>
          if hres.block == some true then
            .ok ({ blocked := true,
                   reason := some (strOrDefault hres.blockReason
                     "Tool result blocked by plugin hook"),
                   result := args.result }, [])
          else
            match hres.result with
            | some r => .ok ({ blocked := false, reason := none, result := r }, [])
            | none => .ok ({ blocked := false, reason := none, result := args.result }, [])
        | none => .ok ({ blocked := false, reason := none, result := args.result }, [])

/-- The tool abstraction (`AnyAgentTool`): a name (`""` models a missing or
empty name, as both are falsy for `tool.name || "tool"`), an optional
asynchronous execution capability, and the record's remaining fields carried
opaquely in `meta`. `Sig` and `Upd` are the opaque types of the cancellation
signal and the progress callback, forwarded but never inspected. -/
structure AgentTool (Sig Upd : Type) where
  name : String
  execute : Option (String → Value → Sig → Upd → Except JsExc Value)
  meta : Value

/-- The anonymous async function the source installs as the wrapped tool's
`execute`: sequences before-hook, underlying execution (with the duration
oracle standing in for the `Date.now()` measurement) and after-hook,
translating a block verdict of either stage into a thrown `Error`. -/
def wrappedExecute {Sig Upd : Type} (env : Env) (toolName : String)
    (execute : String → Value → Sig → Upd → Except JsExc Value)
    (ctx : Option HookContext) :
    String → Value → Sig → Upd → Except JsExc Value :=
  fun toolCallId params signal onUpdate =>
    match runBeforeToolCallHook env
        { toolName := toolName, params := params,
          toolCallId := some toolCallId, ctx := ctx } with
    | .error e => .error e
    | .ok (beforeOutcome, _) =>
      match beforeOutcome with
      | .blocked reason => .error (.jsError reason)
      | .allowed newParams =>
        match execute toolCallId newParams signal onUpdate with
        | .error e => .error e
        | .ok result =>
          match runToolResultReceivedHook env
              { toolName := toolName, params := newParams, result := result,
                toolCallId := some toolCallId, ctx := ctx,
                durationMs := some env.execDurationMs } with
          | .error e => .error e
          | .ok (afterOutcome, _) =>
            if afterOutcome.blocked then
              .error (.jsError (errMessageOf afterOutcome.reason))
            else
              .ok afterOutcome.result

/-- Embedding of `wrapToolWithBeforeToolCallHook`: a tool without an
execution capability is returned unchanged; otherwise a copy with `execute`
replaced by the hook-sequencing body `wrappedExecute`. -/
def wrapToolWithBeforeToolCallHook {Sig Upd : Type} (env : Env)
    (tool : AgentTool Sig Upd) (ctx : Option HookContext) : AgentTool Sig Upd :=
  match tool.execute with
  | none => tool
  | some execute =>
    let toolName := if tool.name == "" then "tool" else tool.name
    { tool with execute := some (wrappedExecute env toolName execute ctx) }

/-! Concrete instances used to exercise the theorems on closed inputs. -/

/-- An environment with no global hook runner installed. -/
def envNone : Env :=
  { hookRunner := none, normalizeToolName := fun s => s, execDurationMs := 5 }

/-- An underlying execute that echoes its params back as the result. -/
def execEcho : String → Value → Unit → Unit → Except JsExc Value :=
  fun _ p _ _ => .ok p

/-- An underlying execute that always rejects. -/
def execFail : String → Value → Unit → Unit → Except JsExc Value :=
  fun _ _ _ _ => .error (.thrownValue (.vStr "exec failed"))

/-- A concrete tool with an execution capability. -/
def toolEcho : AgentTool Unit Unit :=
  { name := "echo", execute := some execEcho, meta := .vStr "extra-field" }

/-- A concrete tool with a rejecting execution capability. -/
def toolFail : AgentTool Unit Unit :=
  { name := "fail", execute := some execFail, meta := .vNull }

/-- A concrete tool without an execution capability. -/
def toolNoExec : AgentTool Unit Unit :=
  { name := "inert", execute := none, meta := .vNull }

/-- A runner whose `hasHooks` itself throws. -/
def runnerHasHooksThrows : HookRunner :=
  { hasHooks := fun _ => .error (.thrownValue (.vStr "hasHooks boom"))
    runBeforeToolCall := fun _ _ => .ok none
    runToolResultReceived := fun _ _ => .ok none }

/-- A runner whose run methods throw (handlers registered for both events). -/
def runnerRunThrows : HookRunner :=
  { hasHooks := fun _ => .ok true
    runBeforeToolCall := fun _ _ => .error (.thrownValue (.vStr "boom"))
    runToolResultReceived := fun _ _ => .error (.thrownValue (.vStr "boom")) }

/-- A runner that blocks the before-call with an explicit reason. -/
def runnerBlockBefore : HookRunner :=
  { hasHooks := fun _ => .ok true
    runBeforeToolCall := fun _ _ => .ok (some
      { block := some true, blockReason := some "no thanks", params := none })
    runToolResultReceived := fun _ _ => .ok none }

/-- A runner that blocks the before-call with an empty reason and the
after-call with an absent reason. -/
def runnerBlockFalsyReason : HookRunner :=
  { hasHooks := fun _ => .ok true
    runBeforeToolCall := fun _ _ => .ok (some
      { block := some true, blockReason := some "", params := none })
    runToolResultReceived := fun _ _ => .ok (some
      { block := some true, blockReason := none, result := none }) }

/-- A runner whose before-hook offers replacement params `\x7bb:3, c:4\x7d`. -/
def runnerMerge : HookRunner :=
  { hasHooks := fun _ => .ok true
    runBeforeToolCall := fun _ _ => .ok (some
      { block := none, blockReason := none,
        params := some (.vObj [("b", .vNum 3), ("c", .vNum 4)]) })
    runToolResultReceived := fun _ _ => .ok none }

/-- A runner registered only for the before event whose verdict offers a
non-mapping (array) replacement. -/
def runnerNonMappingRepl : HookRunner :=
  { hasHooks := fun e =>
      match e with
      | .before_tool_call => .ok true
      | .tool_result_received => .ok false
    runBeforeToolCall := fun _ _ => .ok (some
      { block := some false, blockReason := none, params := some (.vArr []) })
    runToolResultReceived := fun _ _ => .ok none }

/-- A runner registered only for the after event that blocks the result. -/
def runnerAfterBlock : HookRunner :=
  { hasHooks := fun e =>
      match e with
      | .before_tool_call => .ok false
      | .tool_result_received => .ok true
    runBeforeToolCall := fun _ _ => .ok none
    runToolResultReceived := fun _ _ => .ok (some
      { block := some true, blockReason := some "bad result", result := none }) }

/-- A runner registered only for the after event that replaces the result
with the falsy value `false`. -/
def runnerAfterReplaceFalse : HookRunner :=
  { hasHooks := fun e =>
      match e with
      | .before_tool_call => .ok false
      | .tool_result_received => .ok true
    runBeforeToolCall := fun _ _ => .ok none
    runToolResultReceived := fun _ _ => .ok (some
      { block := none, blockReason := none, result := some (.vBool false) }) }

/-- Lifts a concrete runner into an environment with identity normalization. -/
def envOf (hr : HookRunner) : Env :=
  { hookRunner := some hr, normalizeToolName := fun s => s, execDurationMs := 5 }

/-! Helper lemmas: exhaustive case analysis of the two hook functions. -/

theorem before_no_runner (env : Env) (args : BeforeArgs)
    (h : env.hookRunner = none) :
    runBeforeToolCallHook env args = .ok (.allowed args.params, []) := by
  simp [runBeforeToolCallHook, h]

theorem before_no_hooks (env : Env) (hr : HookRunner) (args : BeforeArgs)
    (hEnv : env.hookRunner = some hr)
    (hHas : hr.hasHooks .before_tool_call = .ok false) :
    runBeforeToolCallHook env args = .ok (.allowed args.params, []) := by
  simp [runBeforeToolCallHook, hEnv, hHas]

theorem before_hasHooks_throw (env : Env) (hr : HookRunner) (args : BeforeArgs)
    (e : JsExc) (hEnv : env.hookRunner = some hr)
    (hHas : hr.hasHooks .before_tool_call = .error e) :
    runBeforeToolCallHook env args = .error e := by
  simp [runBeforeToolCallHook, hEnv, hHas]

theorem before_run_error (env : Env) (hr : HookRunner) (args : BeforeArgs)
    (e : JsExc) (hEnv : env.hookRunner = some hr)
    (hHas : hr.hasHooks .before_tool_call = .ok true)
    (hRun : hr.runBeforeToolCall
        { toolName := normName env args.toolName,
          params := normalizedParamsOf args.params }
        (mkInvokeCtx (normName env args.toolName) args.ctx) = .error e) :
    runBeforeToolCallHook env args =
      .ok (.allowed args.params,
        [{ event := .before_tool_call, toolName := normName env args.toolName,
           toolCallId := args.toolCallId, err := e }]) := by
  simp [runBeforeToolCallHook, hEnv, hHas, hRun]

theorem before_no_verdict (env : Env) (hr : HookRunner) (args : BeforeArgs)
    (hEnv : env.hookRunner = some hr)
    (hHas : hr.hasHooks .before_tool_call = .ok true)
    (hRun : hr.runBeforeToolCall
        { toolName := normName env args.toolName,
          params := normalizedParamsOf args.params }
        (mkInvokeCtx (normName env args.toolName) args.ctx) = .ok none) :
    runBeforeToolCallHook env args = .ok (.allowed args.params, []) := by
  simp [runBeforeToolCallHook, hEnv, hHas, hRun]

theorem before_blocked (env : Env) (hr : HookRunner) (args : BeforeArgs)
    (res : BeforeHookResult) (hEnv : env.hookRunner = some hr)
    (hHas : hr.hasHooks .before_tool_call = .ok true)
    (hRun : hr.runBeforeToolCall
        { toolName := normName env args.toolName,
          params := normalizedParamsOf args.params }
        (mkInvokeCtx (normName env args.toolName) args.ctx) = .ok (some res))
    (hBlock : res.block = some true) :
    runBeforeToolCallHook env args =
      .ok (.blocked (strOrDefault res.blockReason "Tool call blocked by plugin hook"),
        []) := by
  simp [runBeforeToolCallHook, hEnv, hHas, hRun, hBlock]

theorem block_beq_false (b : Option Bool) (h : b ≠ some true) :
    (b == some true) = false := by
  cases b with
  | none => rfl
  | some v =>
    cases v with
    | false => rfl
    | true => exact absurd rfl h

theorem before_not_replaced (env : Env) (hr : HookRunner) (args : BeforeArgs)
    (res : BeforeHookResult) (hEnv : env.hookRunner = some hr)
    (hHas : hr.hasHooks .before_tool_call = .ok true)
    (hRun : hr.runBeforeToolCall
        { toolName := normName env args.toolName,
          params := normalizedParamsOf args.params }
        (mkInvokeCtx (normName env args.toolName) args.ctx) = .ok (some res))
    (hNoBlock : res.block ≠ some true)
    (hNoRepl : ∀ p, res.params = some p → (truthy p && isPlainObject p) = false) :
    runBeforeToolCallHook env args = .ok (.allowed args.params, []) := by
  simp only [runBeforeToolCallHook, hEnv, hHas, hRun,
    block_beq_false res.block hNoBlock]
  cases hp : res.params with
  | none => simp
  | some p => simp [hNoRepl p hp]

@[simp] theorem isPlainObject_vObj (fs : List (String × Value)) :
    isPlainObject (.vObj fs) = true := rfl

@[simp] theorem truthy_vObj (fs : List (String × Value)) :
    truthy (.vObj fs) = true := rfl

theorem before_merge (env : Env) (hr : HookRunner) (args : BeforeArgs)
    (res : BeforeHookResult) (o r : List (String × Value))
    (hEnv : env.hookRunner = some hr)
    (hHas : hr.hasHooks .before_tool_call = .ok true)
    (hRun : hr.runBeforeToolCall
        { toolName := normName env args.toolName,
          params := normalizedParamsOf args.params }
        (mkInvokeCtx (normName env args.toolName) args.ctx) = .ok (some res))
    (hNoBlock : res.block ≠ some true)
    (hRepl : res.params = some (.vObj r))
    (hOrig : args.params = .vObj o) :
    runBeforeToolCallHook env args =
      .ok (.allowed (.vObj (spreadMerge o r)), []) := by
  rw [hOrig] at hRun
  simp [runBeforeToolCallHook, hEnv, hHas, hRun,
    block_beq_false res.block hNoBlock, hRepl, hOrig]

theorem before_wholesale (env : Env) (hr : HookRunner) (args : BeforeArgs)
    (res : BeforeHookResult) (r : List (String × Value))
    (hEnv : env.hookRunner = some hr)
    (hHas : hr.hasHooks .before_tool_call = .ok true)
    (hRun : hr.runBeforeToolCall
        { toolName := normName env args.toolName,
          params := normalizedParamsOf args.params }
        (mkInvokeCtx (normName env args.toolName) args.ctx) = .ok (some res))
    (hNoBlock : res.block ≠ some true)
    (hRepl : res.params = some (.vObj r))
    (hOrig : isPlainObject args.params = false) :
    runBeforeToolCallHook env args = .ok (.allowed (.vObj r), []) := by
  simp [runBeforeToolCallHook, hEnv, hHas, hRun,
    block_beq_false res.block hNoBlock, hRepl, hOrig]

theorem after_no_runner (env : Env) (args : AfterArgs)
    (h : env.hookRunner = none) :
    runToolResultReceivedHook env args =
      .ok ({ blocked := false, reason := none, result := args.result }, []) := by
  simp [runToolResultReceivedHook, h]

theorem after_no_hooks (env : Env) (hr : HookRunner) (args : AfterArgs)
    (hEnv : env.hookRunner = some hr)
    (hHas : hr.hasHooks .tool_result_received = .ok false) :
    runToolResultReceivedHook env args =
      .ok ({ blocked := false, reason := none, result := args.result }, []) := by
  simp [runToolResultReceivedHook, hEnv, hHas]

theorem after_hasHooks_throw (env : Env) (hr : HookRunner) (args : AfterArgs)
    (e : JsExc) (hEnv : env.hookRunner = some hr)
    (hHas : hr.hasHooks .tool_result_received = .error e) :
    runToolResultReceivedHook env args = .error e := by
  simp [runToolResultReceivedHook, hEnv, hHas]

theorem after_run_error (env : Env) (hr : HookRunner) (args : AfterArgs)
    (e : JsExc) (hEnv : env.hookRunner = some hr)
    (hHas : hr.hasHooks .tool_result_received = .ok true)
    (hRun : hr.runToolResultReceived
        { toolName := normName env args.toolName, params := args.params,
          result := args.result, durationMs := args.durationMs }
        (mkInvokeCtx (normName env args.toolName) args.ctx) = .error e) :
    runToolResultReceivedHook env args =
      .ok ({ blocked := false, reason := none, result := args.result },
        [{ event := .tool_result_received, toolName := normName env args.toolName,
           toolCallId := args.toolCallId, err := e }]) := by
  simp [runToolResultReceivedHook, hEnv, hHas, hRun]

theorem after_no_verdict (env : Env) (hr : HookRunner) (args : AfterArgs)
    (hEnv : env.hookRunner = some hr)
    (hHas : hr.hasHooks .tool_result_received = .ok true)
    (hRun : hr.runToolResultReceived
        { toolName := normName env args.toolName, params := args.params,
          result := args.result, durationMs := args.durationMs }
        (mkInvokeCtx (normName env args.toolName) args.ctx) = .ok none) :
    runToolResultReceivedHook env args =
      .ok ({ blocked := false, reason := none, result := args.result }, []) := by
  simp [runToolResultReceivedHook, hEnv, hHas, hRun]

theorem after_blocked (env : Env) (hr : HookRunner) (args : AfterArgs)
    (res : AfterHookResult) (hEnv : env.hookRunner = some hr)
    (hHas : hr.hasHooks .tool_result_received = .ok true)
    (hRun : hr.runToolResultReceived
        { toolName := normName env args.toolName, params := args.params,
          result := args.result, durationMs := args.durationMs }
        (mkInvokeCtx (normName env args.toolName) args.ctx) = .ok (some res))
    (hBlock : res.block = some true) :
    runToolResultReceivedHook env args =
      .ok ({ blocked := true,
             reason := some (strOrDefault res.blockReason
               "Tool result blocked by plugin hook"),
             result := args.result }, []) := by
  simp [runToolResultReceivedHook, hEnv, hHas, hRun, hBlock]

theorem after_replaced (env : Env) (hr : HookRunner) (args : AfterArgs)
    (res : AfterHookResult) (v : Value) (hEnv : env.hookRunner = some hr)
    (hHas : hr.hasHooks .tool_result_received = .ok true)
    (hRun : hr.runToolResultReceived
        { toolName := normName env args.toolName, params := args.params,
          result := args.result, durationMs := args.durationMs }
        (mkInvokeCtx (normName env args.toolName) args.ctx) = .ok (some res))
    (hNoBlock : res.block ≠ some true)
    (hRes : res.result = some v) :
    runToolResultReceivedHook env args =
      .ok ({ blocked := false, reason := none, result := v }, []) := by
  simp [runToolResultReceivedHook, hEnv, hHas, hRun,
    block_beq_false res.block hNoBlock, hRes]

theorem after_not_replaced (env : Env) (hr : HookRunner) (args : AfterArgs)
    (res : AfterHookResult) (hEnv : env.hookRunner = some hr)
    (hHas : hr.hasHooks .tool_result_received = .ok true)
    (hRun : hr.runToolResultReceived
        { toolName := normName env args.toolName, params := args.params,
          result := args.result, durationMs := args.durationMs }
        (mkInvokeCtx (normName env args.toolName) args.ctx) = .ok (some res))
    (hNoBlock : res.block ≠ some true)
    (hRes : res.result = none) :
    runToolResultReceivedHook env args =
      .ok ({ blocked := false, reason := none, result := args.result }, []) := by
  simp [runToolResultReceivedHook, hEnv, hHas, hRun,
    block_beq_false res.block hNoBlock, hRes]

/-! Lemmas about the shallow-spread merge and the default-reason helper. -/

theorem overrideFields_lookup (orig repl : List (String × Value)) (k : String) :
    (overrideFields orig repl).lookup k =
      (orig.lookup k).map fun w => (repl.lookup k).getD w := by
  induction orig with
  | nil => simp [overrideFields]
  | cons kv rest ih =>
    obtain ⟨a, w⟩ := kv
    by_cases h : k = a
    · subst h
      cases hr : repl.lookup k with
      | none => simp [overrideFields, List.lookup_cons, hr]
      | some v => simp [overrideFields, List.lookup_cons, hr]
    · have hb : (k == a) = false := by simp [h]
      cases hrep : repl.lookup a with
      | none => simpa [overrideFields, List.lookup_cons, hb, hrep] using ih
      | some v => simpa [overrideFields, List.lookup_cons, hb, hrep] using ih

theorem newFields_lookup_of_absent (orig repl : List (String × Value)) (k : String)
    (h : orig.lookup k = none) :
    (newFields orig repl).lookup k = repl.lookup k := by
  induction repl with
  | nil => simp [newFields]
  | cons kv rest ih =>
    obtain ⟨b, v⟩ := kv
    by_cases hk : k = b
    · subst hk
      simp [newFields, List.filter_cons, h, List.lookup_cons]
    · have hb : (k == b) = false := by simp [hk]
      cases horig : orig.lookup b with
      | none => simpa [newFields, List.filter_cons, horig, List.lookup_cons, hb] using ih
      | some w => simpa [newFields, List.filter_cons, horig, List.lookup_cons, hb] using ih

theorem newFields_lookup_of_present (orig repl : List (String × Value)) (k : String)
    (w : Value) (h : orig.lookup k = some w) :
    (newFields orig repl).lookup k = none := by
  induction repl with
  | nil => simp [newFields]
  | cons kv rest ih =>
    obtain ⟨b, v⟩ := kv
    cases horig : orig.lookup b with
    | some w2 =>
      have hdrop : newFields orig ((b, v) :: rest) = newFields orig rest := by
        simp [newFields, List.filter_cons, horig]
      rw [hdrop]
      exact ih
    | none =>
      have hkb : (k == b) = false := by
        have : k ≠ b := by
          intro hkb
          subst hkb
          rw [h] at horig
          exact Option.noConfusion horig
        simp [this]
      have hkeep : newFields orig ((b, v) :: rest) = (b, v) :: newFields orig rest := by
        simp [newFields, List.filter_cons, horig]
      rw [hkeep, List.lookup_cons, hkb]
      exact ih

theorem lookup_append_left {α β : Type} [BEq α] (l₁ l₂ : List (α × β)) (k : α)
    (v : β) (h : l₁.lookup k = some v) : (l₁ ++ l₂).lookup k = some v := by
  induction l₁ with
  | nil => simp at h
  | cons kv rest ih =>
    obtain ⟨a, b⟩ := kv
    simp only [List.cons_append, List.lookup_cons] at h ⊢
    cases hab : k == a with
    | false => rw [hab] at h; exact ih h
    | true => rw [hab] at h; exact h

theorem lookup_append_right {α β : Type} [BEq α] (l₁ l₂ : List (α × β)) (k : α)
    (h : l₁.lookup k = none) : (l₁ ++ l₂).lookup k = l₂.lookup k := by
  induction l₁ with
  | nil => simp
  | cons kv rest ih =>
    obtain ⟨a, b⟩ := kv
    simp only [List.cons_append, List.lookup_cons] at h ⊢
    cases hab : k == a with
    | false => rw [hab] at h; exact ih h
    | true => rw [hab] at h; exact Option.noConfusion h

theorem spreadMerge_lookup_override (o r : List (String × Value)) (k : String)
    (v : Value) (h : r.lookup k = some v) : (spreadMerge o r).lookup k = some v := by
  cases ho : o.lookup k with
  | some w =>
    apply lookup_append_left
    rw [overrideFields_lookup, ho, h]
    rfl
  | none =>
    rw [spreadMerge, lookup_append_right]
    · rw [newFields_lookup_of_absent o r k ho, h]
    · rw [overrideFields_lookup, ho]
      rfl

theorem spreadMerge_lookup_retain (o r : List (String × Value)) (k : String)
    (v : Value) (ho : o.lookup k = some v) (hr : r.lookup k = none) :
    (spreadMerge o r).lookup k = some v := by
  apply lookup_append_left
  rw [overrideFields_lookup, ho, hr]
  rfl

theorem strOrDefault_none (d : String) : strOrDefault none d = d := rfl

theorem strOrDefault_empty (d : String) : strOrDefault (some "") d = d := rfl

theorem strOrDefault_some (s d : String) (h : s ≠ "") :
    strOrDefault (some s) d = s := by
  simp [strOrDefault, h]

theorem strOrDefault_ne_empty (r : Option String) (d : String) (hd : d ≠ "") :
    strOrDefault r d ≠ "" := by
  cases r with
  | none => simpa [strOrDefault] using hd
  | some s =>
    by_cases h : s = ""
    · subst h
      simpa [strOrDefault] using hd
    · simp [strOrDefault, h]

theorem wrap_execute_eq {Sig Upd : Type} (env : Env) (tool : AgentTool Sig Upd)
    (ctx : Option HookContext)
    (f : String → Value → Sig → Upd → Except JsExc Value)
    (hf : tool.execute = some f) :
    (wrapToolWithBeforeToolCallHook env tool ctx).execute =
      some (wrappedExecute env (if tool.name == "" then "tool" else tool.name)
        f ctx) := by
  simp [wrapToolWithBeforeToolCallHook, hf]

/-! Claim theorems. -/

/-- C1: if no hook runner is installed, or the installed runner has no
handlers registered for either `before_tool_call` or `tool_result_received`,
then invoking the wrapped tool yields exactly the same result (or the same
rejection) as invoking the underlying execute directly, and the underlying
execute is applied to exactly the original params. -/
theorem C1_passThroughIdentity {Sig Upd : Type} (env : Env)
    (tool : AgentTool Sig Upd)
    (f : String → Value → Sig → Upd → Except JsExc Value)
    (hf : tool.execute = some f)
    (hno : env.hookRunner = none ∨ ∃ hr, env.hookRunner = some hr ∧
      hr.hasHooks .before_tool_call = .ok false ∧
      hr.hasHooks .tool_result_received = .ok false)
    (ctx : Option HookContext) (toolCallId : String) (params : Value)
    (signal : Sig) (onUpdate : Upd) :
    ∃ g, (wrapToolWithBeforeToolCallHook env tool ctx).execute = some g ∧
      g toolCallId params signal onUpdate =
        f toolCallId params signal onUpdate := by
  refine ⟨_, wrap_execute_eq env tool ctx f hf, ?_⟩
  have hBefore : runBeforeToolCallHook env
      { toolName := if tool.name == "" then "tool" else tool.name,
        params := params, toolCallId := some toolCallId, ctx := ctx } =
      .ok (.allowed params, []) := by
    rcases hno with h | ⟨hr, hEnv, hb, _⟩
    · exact before_no_runner env _ h
    · exact before_no_hooks env hr _ hEnv hb
  simp only [wrappedExecute, hBefore]
  cases hres : f toolCallId params signal onUpdate with
  | error e => simp
  | ok r =>
    have hAfter : runToolResultReceivedHook env
        { toolName := if tool.name == "" then "tool" else tool.name,
          params := params, result := r, toolCallId := some toolCallId,
          ctx := ctx, durationMs := some env.execDurationMs } =
        .ok ({ blocked := false, reason := none, result := r }, []) := by
      rcases hno with h | ⟨hr, hEnv, _, ha⟩
      · exact after_no_runner env _ h
      · exact after_no_hooks env hr _ hEnv ha
    dsimp only
    rw [hAfter]
    rfl

/-- C1 witness: a no-runner environment and the echo tool at concrete
inputs. -/
theorem C1_passThroughIdentity_witness :
    ∃ g, (wrapToolWithBeforeToolCallHook envNone toolEcho none).execute = some g ∧
      g "call-1" (.vNum 3) () () = execEcho "call-1" (.vNum 3) () () :=
  C1_passThroughIdentity envNone toolEcho execEcho rfl (Or.inl rfl) none
    "call-1" (.vNum 3) () ()

/-- C2 counterexample: a hook runner whose `hasHooks` method throws has that
error surfaced verbatim by `runBeforeToolCallHook` — the registration check
sits outside the `try`/`catch` — contradicting the claim that no error from
the hook machinery (including `hasHooks`) reaches the caller. -/
theorem C2_hasHooksErrorSurfaces :
    runBeforeToolCallHook (envOf runnerHasHooksThrows)
      { toolName := "t", params := .vStr "p", toolCallId := none, ctx := none } =
      .error (.thrownValue (.vStr "hasHooks boom")) := rfl

/-- C2 (amended): when the runner's `runBeforeToolCall` or
`runToolResultReceived` invocation fails, no error is surfaced: a warning
entry is recorded and the call proceeds exactly as if the hook had returned
no verdict — `runBeforeToolCallHook` yields Allowed with the original params
and `runToolResultReceivedHook` yields not-blocked with the original result.
(An error thrown by `hasHooks` itself is outside the `try` and propagates;
see the counterexample.) -/
theorem C2_hookFailureNonFatal (env : Env) (hr : HookRunner)
    (hEnv : env.hookRunner = some hr) :
    (∀ (args : BeforeArgs) (e : JsExc),
      hr.hasHooks .before_tool_call = .ok true →
      hr.runBeforeToolCall
        { toolName := normName env args.toolName,
          params := normalizedParamsOf args.params }
        (mkInvokeCtx (normName env args.toolName) args.ctx) = .error e →
      runBeforeToolCallHook env args =
        .ok (.allowed args.params,
          [{ event := .before_tool_call, toolName := normName env args.toolName,
             toolCallId := args.toolCallId, err := e }])) ∧
    (∀ (args : AfterArgs) (e : JsExc),
      hr.hasHooks .tool_result_received = .ok true →
      hr.runToolResultReceived
        { toolName := normName env args.toolName, params := args.params,
          result := args.result, durationMs := args.durationMs }
        (mkInvokeCtx (normName env args.toolName) args.ctx) = .error e →
      runToolResultReceivedHook env args =
        .ok ({ blocked := false, reason := none, result := args.result },
          [{ event := .tool_result_received,
             toolName := normName env args.toolName,
             toolCallId := args.toolCallId, err := e }])) :=
  ⟨fun args e hHas hRun => before_run_error env hr args e hEnv hHas hRun,
   fun args e hHas hRun => after_run_error env hr args e hEnv hHas hRun⟩

/-- C2 witness: a runner whose run methods throw, at concrete arguments;
both hooks degrade to pass-through with one warning entry each. -/
theorem C2_hookFailureNonFatal_witness :
    runBeforeToolCallHook (envOf runnerRunThrows)
      { toolName := "t", params := .vStr "p", toolCallId := some "c2", ctx := none } =
      .ok (.allowed (.vStr "p"),
        [{ event := .before_tool_call, toolName := "t",
           toolCallId := some "c2", err := .thrownValue (.vStr "boom") }]) ∧
    runToolResultReceivedHook (envOf runnerRunThrows)
      { toolName := "t", params := .vStr "p", result := .vNum 7,
        toolCallId := some "c2", ctx := none, durationMs := some 5 } =
      .ok ({ blocked := false, reason := none, result := .vNum 7 },
        [{ event := .tool_result_received, toolName := "t",
           toolCallId := some "c2", err := .thrownValue (.vStr "boom") }]) :=
  ⟨(C2_hookFailureNonFatal (envOf runnerRunThrows) runnerRunThrows rfl).1
      { toolName := "t", params := .vStr "p", toolCallId := some "c2", ctx := none }
      (.thrownValue (.vStr "boom")) rfl rfl,
   (C2_hookFailureNonFatal (envOf runnerRunThrows) runnerRunThrows rfl).2
      { toolName := "t", params := .vStr "p", result := .vNum 7,
        toolCallId := some "c2", ctx := none, durationMs := some 5 }
      (.thrownValue (.vStr "boom")) rfl rfl⟩

/-- C3: if the before-call verdict blocks, the wrapped call rejects with an
`Error` whose message is the handler-supplied reason (when one was supplied
and non-empty) or the fixed default "Tool call blocked by plugin hook" (when
none was supplied), and the underlying execute — universally quantified and
absent from the conclusion — is never invoked. -/
theorem C3_beforeBlockShortCircuit {Sig Upd : Type} (env : Env)
    (hr : HookRunner) (hEnv : env.hookRunner = some hr)
    (tool : AgentTool Sig Upd)
    (f : String → Value → Sig → Upd → Except JsExc Value)
    (hf : tool.execute = some f) (ctx : Option HookContext)
    (toolCallId : String) (params : Value) (signal : Sig) (onUpdate : Upd)
    (res : BeforeHookResult)
    (hHas : hr.hasHooks .before_tool_call = .ok true)
    (hRun : hr.runBeforeToolCall
      { toolName := normName env (if tool.name == "" then "tool" else tool.name),
        params := normalizedParamsOf params }
      (mkInvokeCtx (normName env (if tool.name == "" then "tool" else tool.name))
        ctx) = .ok (some res))
    (hBlock : res.block = some true) :
    ∃ g, (wrapToolWithBeforeToolCallHook env tool ctx).execute = some g ∧
      g toolCallId params signal onUpdate =
        .error (.jsError (strOrDefault res.blockReason
          "Tool call blocked by plugin hook")) ∧
      (∀ s, res.blockReason = some s → s ≠ "" →
        strOrDefault res.blockReason "Tool call blocked by plugin hook" = s) ∧
      (res.blockReason = none →
        strOrDefault res.blockReason "Tool call blocked by plugin hook" =
          "Tool call blocked by plugin hook") := by
  have hB := before_blocked env hr
    { toolName := if tool.name == "" then "tool" else tool.name,
      params := params, toolCallId := some toolCallId, ctx := ctx }
    res hEnv hHas hRun hBlock
  refine ⟨_, wrap_execute_eq env tool ctx f hf, ?_, ?_, ?_⟩
  · simp only [wrappedExecute]
    rw [hB]
  · intro s hs hne
    rw [hs]
    exact strOrDefault_some s _ hne
  · intro h
    rw [h]
    exact strOrDefault_none _

/-- C3 witness: a concrete blocking runner with reason "no thanks". -/
theorem C3_beforeBlockShortCircuit_witness :
    ∃ g, (wrapToolWithBeforeToolCallHook (envOf runnerBlockBefore) toolEcho
        none).execute = some g ∧
      g "call-3" (.vNum 1) () () =
        .error (.jsError (strOrDefault (some "no thanks")
          "Tool call blocked by plugin hook")) ∧
      (∀ s, (some "no thanks" : Option String) = some s → s ≠ "" →
        strOrDefault (some "no thanks") "Tool call blocked by plugin hook" = s) ∧
      ((some "no thanks" : Option String) = none →
        strOrDefault (some "no thanks") "Tool call blocked by plugin hook" =
          "Tool call blocked by plugin hook") :=
  C3_beforeBlockShortCircuit (envOf runnerBlockBefore) runnerBlockBefore rfl
    toolEcho execEcho rfl none "call-3" (.vNum 1) () ()
    { block := some true, blockReason := some "no thanks", params := none }
    rfl rfl rfl

/-- C4: a non-blocking before-call verdict with a plain-mapping replacement:
when the original params are a plain mapping the outcome is the shallow
spread merge (every original key retained, replacement keys overriding or
extending, witnessed at the lookup level); when the original params are not
a plain mapping the replacement mapping is returned wholesale. -/
theorem C4_paramsMerge (env : Env) (hr : HookRunner)
    (hEnv : env.hookRunner = some hr) (args : BeforeArgs)
    (res : BeforeHookResult) (r : List (String × Value))
    (hHas : hr.hasHooks .before_tool_call = .ok true)
    (hRun : hr.runBeforeToolCall
        { toolName := normName env args.toolName,
          params := normalizedParamsOf args.params }
        (mkInvokeCtx (normName env args.toolName) args.ctx) = .ok (some res))
    (hNoBlock : res.block ≠ some true)
    (hRepl : res.params = some (.vObj r)) :
    (∀ o, args.params = .vObj o →
      runBeforeToolCallHook env args =
        .ok (.allowed (.vObj (spreadMerge o r)), []) ∧
      (∀ k v, r.lookup k = some v → (spreadMerge o r).lookup k = some v) ∧
      (∀ k v, o.lookup k = some v → r.lookup k = none →
        (spreadMerge o r).lookup k = some v)) ∧
    (isPlainObject args.params = false →
      runBeforeToolCallHook env args = .ok (.allowed (.vObj r), [])) := by
  constructor
  · intro o hO
    exact ⟨before_merge env hr args res o r hEnv hHas hRun hNoBlock hRepl hO,
      fun k v h => spreadMerge_lookup_override o r k v h,
      fun k v ho hrn => spreadMerge_lookup_retain o r k v ho hrn⟩
  · intro hNP
    exact before_wholesale env hr args res r hEnv hHas hRun hNoBlock hRepl hNP

/-- C4 witness: original params \x7ba:1, b:2\x7d merged with the hook's
\x7bb:3, c:4\x7d yield exactly \x7ba:1, b:3, c:4\x7d. -/
theorem C4_paramsMerge_witness :
    runBeforeToolCallHook (envOf runnerMerge)
      { toolName := "t", params := .vObj [("a", .vNum 1), ("b", .vNum 2)],
        toolCallId := none, ctx := none } =
      .ok (.allowed (.vObj [("a", .vNum 1), ("b", .vNum 3), ("c", .vNum 4)]),
        []) :=
  ((C4_paramsMerge (envOf runnerMerge) runnerMerge rfl
      { toolName := "t", params := .vObj [("a", .vNum 1), ("b", .vNum 2)],
        toolCallId := none, ctx := none }
      { block := none, blockReason := none,
        params := some (.vObj [("b", .vNum 3), ("c", .vNum 4)]) }
      [("b", .vNum 3), ("c", .vNum 4)] rfl rfl (by decide) rfl).1
    [("a", .vNum 1), ("b", .vNum 2)] rfl).1

/-- C5: with before-handlers registered and original params that are not a
plain mapping, the payload handed to the runner carries the empty mapping
(the hypothesis fixes the runner's behavior only at that payload), yet when
the verdict neither blocks nor supplies a plain-mapping replacement the hook
returns Allowed with the original, unmodified params — and (shown here with
no after-handlers) that original value is what the executed tool receives. -/
theorem C5_nonMappingParamsUntouched {Sig Upd : Type} (env : Env)
    (hr : HookRunner) (hEnv : env.hookRunner = some hr)
    (tool : AgentTool Sig Upd)
    (f : String → Value → Sig → Upd → Except JsExc Value)
    (hf : tool.execute = some f) (ctx : Option HookContext)
    (toolCallId : String) (params : Value) (signal : Sig) (onUpdate : Upd)
    (hNotPlain : isPlainObject params = false)
    (res : BeforeHookResult)
    (hHas : hr.hasHooks .before_tool_call = .ok true)
    (hRun : hr.runBeforeToolCall
      { toolName := normName env (if tool.name == "" then "tool" else tool.name),
        params := .vObj [] }
      (mkInvokeCtx (normName env (if tool.name == "" then "tool" else tool.name))
        ctx) = .ok (some res))
    (hNoBlock : res.block ≠ some true)
    (hNoRepl : ∀ p, res.params = some p → isPlainObject p = false) :
    runBeforeToolCallHook env
      { toolName := if tool.name == "" then "tool" else tool.name,
        params := params, toolCallId := some toolCallId, ctx := ctx } =
      .ok (.allowed params, []) ∧
    (hr.hasHooks .tool_result_received = .ok false →
      ∃ g, (wrapToolWithBeforeToolCallHook env tool ctx).execute = some g ∧
        g toolCallId params signal onUpdate =
          f toolCallId params signal onUpdate) := by
  have hNorm : normalizedParamsOf params = .vObj [] := by
    simp [normalizedParamsOf, hNotPlain]
  rw [← hNorm] at hRun
  have hBefore := before_not_replaced env hr
    { toolName := if tool.name == "" then "tool" else tool.name,
      params := params, toolCallId := some toolCallId, ctx := ctx }
    res hEnv hHas hRun hNoBlock
    (fun p hp => by simp [hNoRepl p hp])
  refine ⟨hBefore, fun hA => ⟨_, wrap_execute_eq env tool ctx f hf, ?_⟩⟩
  simp only [wrappedExecute, hBefore]
  cases hres : f toolCallId params signal onUpdate with
  | error e => simp
  | ok r =>
    have hAfter := after_no_hooks env hr
      { toolName := if tool.name == "" then "tool" else tool.name,
        params := params, result := r, toolCallId := some toolCallId,
        ctx := ctx, durationMs := some env.execDurationMs } hEnv hA
    dsimp only
    rw [hAfter]
    rfl

/-- C5 witness: original params "raw-string" with a runner whose verdict
offers an array (non-mapping) replacement; the tool still receives
"raw-string". -/
theorem C5_nonMappingParamsUntouched_witness :
    runBeforeToolCallHook (envOf runnerNonMappingRepl)
      { toolName := "echo", params := .vStr "raw-string",
        toolCallId := some "call-5", ctx := none } =
      .ok (.allowed (.vStr "raw-string"), []) ∧
    (runnerNonMappingRepl.hasHooks .tool_result_received = .ok false →
      ∃ g, (wrapToolWithBeforeToolCallHook (envOf runnerNonMappingRepl)
          toolEcho none).execute = some g ∧
        g "call-5" (.vStr "raw-string") () () =
          execEcho "call-5" (.vStr "raw-string") () ()) :=
  C5_nonMappingParamsUntouched (envOf runnerNonMappingRepl)
    runnerNonMappingRepl rfl toolEcho execEcho rfl none "call-5"
    (.vStr "raw-string") () () rfl
    { block := some false, blockReason := none, params := some (.vArr []) }
    rfl rfl (by decide)
    (fun p hp => by injection hp with h; subst h; rfl)

/-- C6: when the underlying tool resolves and the after-call verdict blocks,
`runToolResultReceivedHook` returns blocked with the (defaulted) reason and
the original result, and the wrapped call rejects with an `Error` carrying
that reason; the underlying result is discarded. -/
theorem C6_afterBlockDiscardsResult {Sig Upd : Type} (env : Env)
    (hr : HookRunner) (hEnv : env.hookRunner = some hr)
    (tool : AgentTool Sig Upd)
    (f : String → Value → Sig → Upd → Except JsExc Value)
    (hf : tool.execute = some f) (ctx : Option HookContext)
    (toolCallId : String) (params p r : Value) (signal : Sig) (onUpdate : Upd)
    (logsB : List LogEntry)
    (hBefore : runBeforeToolCallHook env
      { toolName := if tool.name == "" then "tool" else tool.name,
        params := params, toolCallId := some toolCallId, ctx := ctx } =
      .ok (.allowed p, logsB))
    (hExec : f toolCallId p signal onUpdate = .ok r)
    (res : AfterHookResult)
    (hHas : hr.hasHooks .tool_result_received = .ok true)
    (hRun : hr.runToolResultReceived
      { toolName := normName env (if tool.name == "" then "tool" else tool.name),
        params := p, result := r, durationMs := some env.execDurationMs }
      (mkInvokeCtx (normName env (if tool.name == "" then "tool" else tool.name))
        ctx) = .ok (some res))
    (hBlock : res.block = some true) :
    runToolResultReceivedHook env
      { toolName := if tool.name == "" then "tool" else tool.name,
        params := p, result := r, toolCallId := some toolCallId, ctx := ctx,
        durationMs := some env.execDurationMs } =
      .ok ({ blocked := true,
             reason := some (strOrDefault res.blockReason
               "Tool result blocked by plugin hook"),
             result := r }, []) ∧
    (res.blockReason = none →
      strOrDefault res.blockReason "Tool result blocked by plugin hook" =
        "Tool result blocked by plugin hook") ∧
    ∃ g, (wrapToolWithBeforeToolCallHook env tool ctx).execute = some g ∧
      g toolCallId params signal onUpdate =
        .error (.jsError (strOrDefault res.blockReason
          "Tool result blocked by plugin hook")) := by
  have hAfter := after_blocked env hr
    { toolName := if tool.name == "" then "tool" else tool.name,
      params := p, result := r, toolCallId := some toolCallId, ctx := ctx,
      durationMs := some env.execDurationMs } res hEnv hHas hRun hBlock
  refine ⟨hAfter, fun h => by rw [h]; exact strOrDefault_none _,
    _, wrap_execute_eq env tool ctx f hf, ?_⟩
  simp only [wrappedExecute]
  rw [hBefore]
  dsimp only
  rw [hExec]
  dsimp only
  rw [hAfter]
  rfl

/-- C6 witness: a runner registered only for the after event that blocks
with reason "bad result"; the echo tool's result is discarded. -/
theorem C6_afterBlockDiscardsResult_witness :
    runToolResultReceivedHook (envOf runnerAfterBlock)
      { toolName := "echo", params := .vNum 2, result := .vNum 2,
        toolCallId := some "call-6", ctx := none, durationMs := some 5 } =
      .ok ({ blocked := true,
             reason := some (strOrDefault (some "bad result")
               "Tool result blocked by plugin hook"),
             result := .vNum 2 }, []) ∧
    ((some "bad result" : Option String) = none →
      strOrDefault (some "bad result") "Tool result blocked by plugin hook" =
        "Tool result blocked by plugin hook") ∧
    ∃ g, (wrapToolWithBeforeToolCallHook (envOf runnerAfterBlock) toolEcho
        none).execute = some g ∧
      g "call-6" (.vNum 2) () () =
        .error (.jsError (strOrDefault (some "bad result")
          "Tool result blocked by plugin hook")) :=
  C6_afterBlockDiscardsResult (envOf runnerAfterBlock) runnerAfterBlock rfl
    toolEcho execEcho rfl none "call-6" (.vNum 2) (.vNum 2) (.vNum 2) () () []
    rfl rfl
    { block := some true, blockReason := some "bad result", result := none }
    rfl rfl rfl

/-- C7: a non-blocking after-call verdict: whenever the verdict's
replacement result is defined — including falsy values — the hook returns
it verbatim (no merge) and the wrapped call resolves with exactly it; only
an undefined replacement keeps the original result. -/
theorem C7_falsyReplacementHonored {Sig Upd : Type} (env : Env)
    (hr : HookRunner) (hEnv : env.hookRunner = some hr)
    (tool : AgentTool Sig Upd)
    (f : String → Value → Sig → Upd → Except JsExc Value)
    (hf : tool.execute = some f) (ctx : Option HookContext)
    (toolCallId : String) (params p r : Value) (signal : Sig) (onUpdate : Upd)
    (logsB : List LogEntry)
    (hBefore : runBeforeToolCallHook env
      { toolName := if tool.name == "" then "tool" else tool.name,
        params := params, toolCallId := some toolCallId, ctx := ctx } =
      .ok (.allowed p, logsB))
    (hExec : f toolCallId p signal onUpdate = .ok r)
    (res : AfterHookResult)
    (hHas : hr.hasHooks .tool_result_received = .ok true)
    (hRun : hr.runToolResultReceived
      { toolName := normName env (if tool.name == "" then "tool" else tool.name),
        params := p, result := r, durationMs := some env.execDurationMs }
      (mkInvokeCtx (normName env (if tool.name == "" then "tool" else tool.name))
        ctx) = .ok (some res))
    (hNoBlock : res.block ≠ some true) :
    (∀ v, res.result = some v →
      runToolResultReceivedHook env
        { toolName := if tool.name == "" then "tool" else tool.name,
          params := p, result := r, toolCallId := some toolCallId, ctx := ctx,
          durationMs := some env.execDurationMs } =
        .ok ({ blocked := false, reason := none, result := v }, []) ∧
      ∃ g, (wrapToolWithBeforeToolCallHook env tool ctx).execute = some g ∧
        g toolCallId params signal onUpdate = .ok v) ∧
    (res.result = none →
      runToolResultReceivedHook env
        { toolName := if tool.name == "" then "tool" else tool.name,
          params := p, result := r, toolCallId := some toolCallId, ctx := ctx,
          durationMs := some env.execDurationMs } =
        .ok ({ blocked := false, reason := none, result := r }, []) ∧
      ∃ g, (wrapToolWithBeforeToolCallHook env tool ctx).execute = some g ∧
        g toolCallId params signal onUpdate = .ok r) := by
  constructor
  · intro v hv
    have hAfter := after_replaced env hr
      { toolName := if tool.name == "" then "tool" else tool.name,
        params := p, result := r, toolCallId := some toolCallId, ctx := ctx,
        durationMs := some env.execDurationMs } res v hEnv hHas hRun hNoBlock hv
    refine ⟨hAfter, _, wrap_execute_eq env tool ctx f hf, ?_⟩
    simp only [wrappedExecute]
    rw [hBefore]
    dsimp only
    rw [hExec]
    dsimp only
    rw [hAfter]
    rfl
  · intro hv
    have hAfter := after_not_replaced env hr
      { toolName := if tool.name == "" then "tool" else tool.name,
        params := p, result := r, toolCallId := some toolCallId, ctx := ctx,
        durationMs := some env.execDurationMs } res hEnv hHas hRun hNoBlock hv
    refine ⟨hAfter, _, wrap_execute_eq env tool ctx f hf, ?_⟩
    simp only [wrappedExecute]
    rw [hBefore]
    dsimp only
    rw [hExec]
    dsimp only
    rw [hAfter]
    rfl

/-- C7 witness: the after-hook replaces the echo result `2` with the falsy
`false`; the caller receives `false`, not the original `2`. -/
theorem C7_falsyReplacementHonored_witness :
    runToolResultReceivedHook (envOf runnerAfterReplaceFalse)
      { toolName := "echo", params := .vNum 2, result := .vNum 2,
        toolCallId := some "call-7", ctx := none, durationMs := some 5 } =
      .ok ({ blocked := false, reason := none, result := .vBool false }, []) ∧
    ∃ g, (wrapToolWithBeforeToolCallHook (envOf runnerAfterReplaceFalse)
        toolEcho none).execute = some g ∧
      g "call-7" (.vNum 2) () () = .ok (.vBool false) :=
  (C7_falsyReplacementHonored (envOf runnerAfterReplaceFalse)
      runnerAfterReplaceFalse rfl toolEcho execEcho rfl none "call-7"
      (.vNum 2) (.vNum 2) (.vNum 2) () () [] rfl rfl
      { block := none, blockReason := none, result := some (.vBool false) }
      rfl rfl (by decide)).1
    (.vBool false) rfl

/-- C8: if the before-call hook allows the call and the underlying execute
rejects, that failure propagates verbatim; nothing about the runner's
after-hook behavior is assumed, so the after-hook is never consulted. -/
theorem C8_underlyingFailurePropagates {Sig Upd : Type} (env : Env)
    (tool : AgentTool Sig Upd)
    (f : String → Value → Sig → Upd → Except JsExc Value)
    (hf : tool.execute = some f) (ctx : Option HookContext)
    (toolCallId : String) (params p : Value) (signal : Sig) (onUpdate : Upd)
    (logsB : List LogEntry) (e : JsExc)
    (hBefore : runBeforeToolCallHook env
      { toolName := if tool.name == "" then "tool" else tool.name,
        params := params, toolCallId := some toolCallId, ctx := ctx } =
      .ok (.allowed p, logsB))
    (hExec : f toolCallId p signal onUpdate = .error e) :
    ∃ g, (wrapToolWithBeforeToolCallHook env tool ctx).execute = some g ∧
      g toolCallId params signal onUpdate = .error e := by
  refine ⟨_, wrap_execute_eq env tool ctx f hf, ?_⟩
  simp only [wrappedExecute]
  rw [hBefore]
  dsimp only
  rw [hExec]

/-- C8 witness: the failing tool's rejection surfaces unchanged through the
wrapper (no runner installed, so the before stage passes through). -/
theorem C8_underlyingFailurePropagates_witness :
    ∃ g, (wrapToolWithBeforeToolCallHook envNone toolFail none).execute =
        some g ∧
      g "call-8" (.vNum 0) () () =
        .error (.thrownValue (.vStr "exec failed")) :=
  C8_underlyingFailurePropagates envNone toolFail execFail rfl none "call-8"
    (.vNum 0) (.vNum 0) () () [] (.thrownValue (.vStr "exec failed")) rfl rfl

/-- C9: wrapping a tool without an execution capability returns it
unchanged; wrapping one with an execution capability preserves every field
other than `execute` (`name` and the opaque remainder `meta`). The original
tool value is never mutated — in this pure model the input is untouched by
construction. -/
theorem C9_wrapFrame {Sig Upd : Type} (env : Env) (tool : AgentTool Sig Upd)
    (ctx : Option HookContext) :
    (tool.execute = none → wrapToolWithBeforeToolCallHook env tool ctx = tool) ∧
    (∀ f, tool.execute = some f →
      (wrapToolWithBeforeToolCallHook env tool ctx).name = tool.name ∧
      (wrapToolWithBeforeToolCallHook env tool ctx).meta = tool.meta) := by
  constructor
  · intro h
    simp [wrapToolWithBeforeToolCallHook, h]
  · intro f hf
    constructor <;> simp [wrapToolWithBeforeToolCallHook, hf]

/-- C9 witness: the inert tool comes back unchanged; the echo tool keeps its
name and extra field. -/
theorem C9_wrapFrame_witness :
    wrapToolWithBeforeToolCallHook envNone toolNoExec none = toolNoExec ∧
    (wrapToolWithBeforeToolCallHook envNone toolEcho none).name =
      toolEcho.name ∧
    (wrapToolWithBeforeToolCallHook envNone toolEcho none).meta =
      toolEcho.meta :=
  ⟨(C9_wrapFrame envNone toolNoExec none).1 rfl,
   ((C9_wrapFrame envNone toolEcho none).2 execEcho rfl).1,
   ((C9_wrapFrame envNone toolEcho none).2 execEcho rfl).2⟩

/-- C10: every blocked outcome carries a non-empty reason: under a blocking
verdict both hook functions produce some message that is never the empty
string, and the fixed default is substituted not only when `blockReason` is
absent but also when the handler supplied the empty string. -/
theorem C10_blockedReasonNonempty (env : Env) (hr : HookRunner)
    (hEnv : env.hookRunner = some hr) :
    (∀ (args : BeforeArgs) (res : BeforeHookResult),
      hr.hasHooks .before_tool_call = .ok true →
      hr.runBeforeToolCall
        { toolName := normName env args.toolName,
          params := normalizedParamsOf args.params }
        (mkInvokeCtx (normName env args.toolName) args.ctx) = .ok (some res) →
      res.block = some true →
      ∃ msg, runBeforeToolCallHook env args = .ok (.blocked msg, []) ∧
        msg ≠ "" ∧
        ((res.blockReason = none ∨ res.blockReason = some "") →
          msg = "Tool call blocked by plugin hook")) ∧
    (∀ (args : AfterArgs) (res : AfterHookResult),
      hr.hasHooks .tool_result_received = .ok true →
      hr.runToolResultReceived
        { toolName := normName env args.toolName, params := args.params,
          result := args.result, durationMs := args.durationMs }
        (mkInvokeCtx (normName env args.toolName) args.ctx) = .ok (some res) →
      res.block = some true →
      ∃ msg, runToolResultReceivedHook env args =
          .ok ({ blocked := true, reason := some msg, result := args.result },
            []) ∧
        msg ≠ "" ∧
        ((res.blockReason = none ∨ res.blockReason = some "") →
          msg = "Tool result blocked by plugin hook")) := by
  constructor
  · intro args res hHas hRun hBlock
    refine ⟨_, before_blocked env hr args res hEnv hHas hRun hBlock,
      strOrDefault_ne_empty _ _ (by decide), ?_⟩
    rintro (h | h) <;> rw [h]
    · exact strOrDefault_none _
    · exact strOrDefault_empty _
  · intro args res hHas hRun hBlock
    refine ⟨_, after_blocked env hr args res hEnv hHas hRun hBlock,
      strOrDefault_ne_empty _ _ (by decide), ?_⟩
    rintro (h | h) <;> rw [h]
    · exact strOrDefault_none _
    · exact strOrDefault_empty _

/-- C10 witness: a before-handler supplying the empty string as reason and
an after-handler supplying none; both outcomes carry the fixed defaults. -/
theorem C10_blockedReasonNonempty_witness :
    (∃ msg, runBeforeToolCallHook (envOf runnerBlockFalsyReason)
        { toolName := "t", params := .vNull, toolCallId := none, ctx := none } =
        .ok (.blocked msg, []) ∧
      msg ≠ "" ∧
      (((some "" : Option String) = none ∨
          (some "" : Option String) = some "") →
        msg = "Tool call blocked by plugin hook")) ∧
    (∃ msg, runToolResultReceivedHook (envOf runnerBlockFalsyReason)
        { toolName := "t", params := .vNull, result := .vNum 9,
          toolCallId := none, ctx := none, durationMs := some 5 } =
        .ok ({ blocked := true, reason := some msg, result := .vNum 9 }, []) ∧
      msg ≠ "" ∧
      (((none : Option String) = none ∨ (none : Option String) = some "") →
        msg = "Tool result blocked by plugin hook")) :=
  ⟨(C10_blockedReasonNonempty (envOf runnerBlockFalsyReason)
      runnerBlockFalsyReason rfl).1
      { toolName := "t", params := .vNull, toolCallId := none, ctx := none }
      { block := some true, blockReason := some "", params := none } rfl rfl rfl,
   (C10_blockedReasonNonempty (envOf runnerBlockFalsyReason)
      runnerBlockFalsyReason rfl).2
      { toolName := "t", params := .vNull, result := .vNum 9,
        toolCallId := none, ctx := none, durationMs := some 5 }
      { block := some true, blockReason := none, result := none } rfl rfl rfl⟩

end PiToolsHooks
